import Mathlib

/-
Verification of the manor repository's segment lifecycle / upload pipeline.

This file gives a shallow embedding, in Lean 4, of the parts of
`packages/cdk/programs/hls.py` (Upload Dispatcher and upload workers) and
`packages/cdk/programs/casa-cameras-local-writer.py` (Disk Guard / mount
resolution, FFmpeg process supervision, Segment Finalizer, Retention
Sweeper), and proves properties of the embedded code.

Python dictionaries are embedded as association lists keyed by `String`;
POSIX timestamps are embedded as `Int` (seconds); float percentages are
embedded as `ℚ`.  Filesystem state is embedded explicitly as a list of
(path, mtime) pairs, and the effect of each loop body on it is a pure
function of that state.
-/

namespace Manor

/-! ## Association-list helpers (embedding of Python dict operations) -/

/-- Embedding of Python `d[k] = v`: record the binding for `k`, shadowing any
previous binding. -/
def AListSet {α : Type} (l : List (String × α)) (k : String) (v : α) :
    List (String × α) :=
  (k, v) :: l.filter (fun p => p.1 != k)

/-- Embedding of Python `del d[k]` / `os.remove` on a path-keyed store. -/
def AListRemove {α : Type} (l : List (String × α)) (k : String) :
    List (String × α) :=
  l.filter (fun p => p.1 != k)

/-! ## Embedding of Python string primitives -/

/-- Embedding of Python `s.startswith(pre)`: `pre` is a prefix of the
character sequence of `s`. -/
def pyStartswith (s pre : String) : Bool :=
  pre.data.isPrefixOf s.data

/-- Embedding of Python `s.endswith(suf)`: `suf` is a suffix of the
character sequence of `s`. -/
def pyEndswith (s suf : String) : Bool :=
  suf.data.isSuffixOf s.data

/-- Fuel-driven worker for `pyReplace`; replaces every occurrence of `pat`
in the input, scanning left to right.  The fuel is always instantiated to
more than the length of the scanned list, so it never runs out. -/
def pyReplaceAux (pat rep : List Char) : Nat → List Char → List Char
  | 0, s => s
  | _ + 1, [] => []
  | fuel + 1, c :: rest =>
    if pat.isPrefixOf (c :: rest) && !pat.isEmpty then
      rep ++ pyReplaceAux pat rep fuel ((c :: rest).drop pat.length)
    else
      c :: pyReplaceAux pat rep fuel rest

/-- Embedding of Python `s.replace(pat, rep)` (replace all occurrences,
left to right, non-overlapping). -/
def pyReplace (s pat rep : String) : String :=
  String.mk (pyReplaceAux pat.data rep.data (s.data.length + 1) s.data)

/-! ## Upload Dispatcher and upload workers (`hls.py`)

`upload_to_s3` keeps `existing_files : {filename: (mtime, size)}` and the
global `upload_in_progress : {filename: bool}`; `upload_file_to_s3` is the
worker submitted to the thread pool.  The shared state visible to both is
embedded as `UploadState`; the local output directory is the `disk` field,
and the remote sink is the `s3` field (list of uploaded keys). -/

/-- Identity fingerprint of a file: `(st_mtime, st_size)` as observed by
`os.stat` in `upload_to_s3` (hls.py lines 335-336). -/
abbrev Fingerprint := Nat × Nat

/-- Shared state of the upload pipeline of `hls.py`:
`disk` is the local output directory (filename to fingerprint),
`existing_files` is the dispatcher's fingerprint dictionary,
`upload_in_progress` is the in-flight flag dictionary, and
`s3` is the set of keys successfully stored remotely. -/
structure UploadState where
  disk : List (String × Fingerprint)
  existing_files : List (String × Fingerprint)
  upload_in_progress : List (String × Bool)
  s3 : List String

/-- Embedding of the new-or-changed test of `upload_to_s3`
(hls.py lines 339-340 and 360-361):
`filename not in existing_files or existing_files[filename] != (mtime, size)`. -/
def fingerprintChanged (existing : List (String × Fingerprint))
    (filename : String) (fp : Fingerprint) : Bool :=
  match existing.lookup filename with
  | none => true
  | some old => old != fp

/-- Embedding of one dispatcher decision of `upload_to_s3` for one file
(hls.py lines 351-366): stat the file; if it is new or changed and not
already in flight, set the in-flight flag, record the fingerprint, and
submit the worker.  Returns the new state and whether the file was
submitted to the pool. -/
def dispatchFile (st : UploadState) (filename : String) :
    UploadState × Bool :=
  match st.disk.lookup filename with
  | none => (st, false)
  | some fp =>
    if fingerprintChanged st.existing_files filename fp
        && !((st.upload_in_progress.lookup filename).getD false) then
      ({ st with
          upload_in_progress := AListSet st.upload_in_progress filename true,
          existing_files := AListSet st.existing_files filename fp },
       true)
    else
      (st, false)

/-- Embedding of the upload worker `upload_file_to_s3` (hls.py lines
251-302).  `s3ClientReady` is whether `s3_client` was initialized; `putOk`
is whether the `s3_client.upload_file` call succeeds (the environment's
choice).  The two early `return`s (no client / file missing, lines
258-264) happen before the `try`, so the `finally` clause that clears the
in-flight flag (lines 300-302) does not run for them.  On a successful put
the local file is removed afterwards (line 291); on a failed put nothing
but the flag changes. -/
def uploadWorker (st : UploadState) (s3ClientReady : Bool)
    (filename : String) (putOk : Bool) : UploadState :=
  if !s3ClientReady then
    st
  else
    match st.disk.lookup filename with
    | none => st
    | some _ =>
      let st1 :=
        if putOk then
          { st with
              s3 := filename :: st.s3,
              disk := AListRemove st.disk filename }
        else
          st
      { st1 with
          upload_in_progress :=
            if (st1.upload_in_progress.lookup filename).isSome then
              AListSet st1.upload_in_progress filename false
            else
              st1.upload_in_progress }

/-- The state after the dispatcher submits `f` and the worker's put fails
(client initialized, file present throughout). -/
def afterFailedUpload (st : UploadState) (f : String) : UploadState :=
  uploadWorker (dispatchFile st f).1 true f false

/-- Repeated poll cycles for the fixed filename `f`: before each cycle the
environment replaces the directory contents (`disks` is the sequence of
directory snapshots), then the dispatcher decision for `f` runs. -/
def pollCycles (st : UploadState) (f : String)
    (disks : List (List (String × Fingerprint))) : UploadState :=
  disks.foldl (fun s d => (dispatchFile { s with disk := d } f).1) st

/-! ## Supervisor retry logic (`casa-cameras-local-writer.py`) -/

/-- `FFMPEG_RETRY_DELAY_SECONDS` (casa-cameras-local-writer.py line 22). -/
def FFMPEG_RETRY_DELAY_SECONDS : Nat := 15

/-- `FFMPEG_MAX_RETRIES` (casa-cameras-local-writer.py line 23). -/
def FFMPEG_MAX_RETRIES : Nat := 5

/-- `FFMPEG_LONG_RETRY_PAUSE_SECONDS` (casa-cameras-local-writer.py line 24). -/
def FFMPEG_LONG_RETRY_PAUSE_SECONDS : Nat := 300

/-- Embedding of the crash-handling step of `run_ffmpeg_recorder`
(casa-cameras-local-writer.py lines 397-405): increment
`current_retries`; if it now exceeds `FFMPEG_MAX_RETRIES`, wait the long
pause and reset the counter to zero, otherwise wait the retry delay.
Returns (new counter, seconds waited before relaunch). -/
def crashRetryStep (current_retries : Nat) : Nat × Nat :=
  let c := current_retries + 1
  if c > FFMPEG_MAX_RETRIES then
    (0, FFMPEG_LONG_RETRY_PAUSE_SECONDS)
  else
    (c, FFMPEG_RETRY_DELAY_SECONDS)

/-- Observable counter values across one supervisor iteration in which the
launch succeeds and the process later crashes. -/
structure RecorderIterObs where
  counterAfterLaunch : Nat
  counterAfterExit : Nat
  waitSeconds : Nat

/-- Embedding of one iteration of the `run_ffmpeg_recorder` loop in which
`subprocess.Popen` succeeds and the process exits unexpectedly after
running for `uptimeSeconds`.  The code sets `current_retries = 0`
immediately after the successful `Popen` (line 352, comment: reset retries
on successful start); nothing in the code consults the starting counter or
the uptime, which is why both parameters are unused here. -/
def recorderCrashIteration (current_retries : Nat) (uptimeSeconds : Nat) :
    RecorderIterObs :=
  let afterLaunch : Nat := 0
  let step := crashRetryStep afterLaunch
  { counterAfterLaunch := afterLaunch,
    counterAfterExit := step.1,
    waitSeconds := step.2 }

/-! ## Disk Guard / mount-point resolution (`casa-cameras-local-writer.py`) -/

/-- Embedding of
`part.mountpoint if part.mountpoint == '/' else part.mountpoint + os.path.sep`
(casa-cameras-local-writer.py lines 207 and 260). -/
def mountPointWithSep (mp : String) : String :=
  if mp == "/" then mp else mp ++ "/"

/-- The match test applied to each mounted filesystem: does the output
directory start with the mount point (with trailing separator added unless
the mount point is the root)? -/
def mountMatches (output_dir mp : String) : Bool :=
  pyStartswith output_dir (mountPointWithSep mp)

/-- One step of the mount-resolution loop (casa-cameras-local-writer.py
lines 257-263): the accumulator is `(output_mount_point, best_match_len)`;
a partition replaces it when it matches and its mount point is strictly
longer than the best match so far. -/
def selectStep (output_dir : String) (acc : String × Nat) (mp : String) :
    String × Nat :=
  if mountMatches output_dir mp = true ∧ acc.2 < mp.length then
    (mp, mp.length)
  else
    acc

/-- Embedding of the whole mount-resolution loop: fold over
`psutil.disk_partitions(all=True)` mount points starting from
`output_mount_point = '/'`, `best_match_len = 0`. -/
def selectMountPoint (partitions : List String) (output_dir : String) :
    String :=
  (partitions.foldl (selectStep output_dir) ("/", 0)).1

/-- Embedding of the pre-launch disk check decision
(casa-cameras-local-writer.py line 267): the launch is paused exactly when
`disk_info.percent > disk_limit` (strict comparison). -/
def diskGuardPauses (percent disk_limit : ℚ) : Bool :=
  decide (disk_limit < percent)

/-! ## Segment Finalizer (`casa-cameras-local-writer.py`) -/

/-- `SEGMENT_DURATION_SECONDS` (casa-cameras-local-writer.py line 28). -/
def SEGMENT_DURATION_SECONDS : Int := 60

/-- `min_age_before_rename = SEGMENT_DURATION_SECONDS + 10`
(casa-cameras-local-writer.py line 441). -/
def minAgeBeforeRename : Int := SEGMENT_DURATION_SECONDS + 10

/-- What the scan did with one temp file. -/
inductive RenameAction where
  | removedRedundantTemp
  | skippedYoung
  | renamed
  | missing
deriving DecidableEq

/-- `final_filename = filename.replace("_temp.mp4", ".mp4")`
(casa-cameras-local-writer.py line 456). -/
def finalFilename (filename : String) : String :=
  pyReplace filename "_temp.mp4" ".mp4"

/-- Embedding of the body of `rename_completed_segments` for one temp file
(casa-cameras-local-writer.py lines 455-481).  `files` is the filesystem
as (path, mtime) pairs and `now` is `time.time()` taken at the start of
the pass.  In source order: (1) if the final path already exists the temp
file is removed; (2) otherwise, if the temp file's age is below
`min_age_before_rename` it is skipped; (3) otherwise it is renamed to the
final path (rename preserves the mtime). -/
def processTempSegment (files : List (String × Int)) (now : Int)
    (root filename : String) : List (String × Int) × RenameAction :=
  let temp_file_path := root ++ "/" ++ filename
  let final_file_path := root ++ "/" ++ finalFilename filename
  if (files.lookup final_file_path).isSome then
    (AListRemove files temp_file_path, RenameAction.removedRedundantTemp)
  else
    match files.lookup temp_file_path with
    | none => (files, RenameAction.missing)
    | some mtime =>
      if now - mtime < minAgeBeforeRename then
        (files, RenameAction.skippedYoung)
      else
        ((final_file_path, mtime) :: AListRemove files temp_file_path,
         RenameAction.renamed)

/-! ## Retention Sweeper (`casa-cameras-local-writer.py`) -/

/-- Embedding of the target test of `cleanup_old_files`
(casa-cameras-local-writer.py line 522): only final `.mp4` files (and not
`_temp.mp4` files) are candidates for removal. -/
def isRetentionTarget (file : String) : Bool :=
  pyEndswith file ".mp4" && !(pyEndswith file "_temp.mp4")

/-- Embedding of the file-removal part of one `cleanup_old_files` pass
(casa-cameras-local-writer.py lines 511-534): with
`cutoff = now - retentionWindow`, a candidate file is removed exactly when
its modification time is strictly before the cutoff; all other entries are
kept.  `files` pairs each file name with its mtime (seconds). -/
def cleanupSweep (files : List (String × Int)) (now retentionWindow : Int) :
    List (String × Int) :=
  files.filter
    (fun p => !(isRetentionTarget p.1 && decide (p.2 < now - retentionWindow)))

/-! ## Association-list lookup lemmas -/

theorem lookup_AListSet_self {α : Type} (l : List (String × α)) (k : String)
    (v : α) : (AListSet l k v).lookup k = some v := by
  simp [AListSet, List.lookup]

theorem lookup_filter_ne_self {α : Type} (l : List (String × α))
    (k : String) : (l.filter (fun p => p.1 != k)).lookup k = none := by
  induction l with
  | nil => rfl
  | cons a t ih =>
    by_cases h : a.1 = k
    · have hb : (a.1 != k) = false := by simp [h]
      simp [List.filter, hb, ih]
    · have hb : (a.1 != k) = true := by simpa using h
      have hk : (k == a.1) = false := by simpa using Ne.symm h
      simp [List.filter, hb, List.lookup, hk, ih]

theorem lookup_AListRemove_self {α : Type} (l : List (String × α))
    (k : String) : (AListRemove l k).lookup k = none :=
  lookup_filter_ne_self l k

theorem lookup_filter_ne_of_ne {α : Type} (l : List (String × α))
    (k k₂ : String) (h : k₂ ≠ k) :
    (l.filter (fun p => p.1 != k)).lookup k₂ = l.lookup k₂ := by
  induction l with
  | nil => rfl
  | cons a t ih =>
    by_cases hak : a.1 = k
    · have hb : (a.1 != k) = false := by simp [hak]
      have hne : (k₂ == a.1) = false := by
        simp only [hak]
        simpa using h
      simp [List.filter, hb, List.lookup, hne, ih]
    · have hb : (a.1 != k) = true := by simpa using hak
      by_cases hk2 : k₂ = a.1
      · have he : (k₂ == a.1) = true := by simpa using hk2
        simp [List.filter, hb, List.lookup, he]
      · have he : (k₂ == a.1) = false := by simpa using hk2
        simp [List.filter, hb, List.lookup, he, ih]

theorem lookup_AListSet_ne {α : Type} (l : List (String × α))
    (k k₂ : String) (v : α) (h : k₂ ≠ k) :
    (AListSet l k v).lookup k₂ = l.lookup k₂ := by
  have he : (k₂ == k) = false := by simpa using h
  simp [AListSet, List.lookup, he, lookup_filter_ne_of_ne l k k₂ h]

theorem lookup_AListRemove_ne {α : Type} (l : List (String × α))
    (k k₂ : String) (h : k₂ ≠ k) :
    (AListRemove l k).lookup k₂ = l.lookup k₂ :=
  lookup_filter_ne_of_ne l k k₂ h

/-! ## String lemmas for mount-point matching -/

theorem pyStartswith_self_append_sep (s : String) :
    pyStartswith s (s ++ "/") = false := by
  cases hb : pyStartswith s (s ++ "/") with
  | false => rfl
  | true =>
    exfalso
    have hp : (s ++ "/").data <+: s.data :=
      List.isPrefixOf_iff_prefix.mp (by simpa [pyStartswith] using hb)
    have hlen := hp.length_le
    have hd : ("/" : String).data = ['/'] := rfl
    rw [String.data_append, List.length_append, hd] at hlen
    simp at hlen

theorem mountMatches_self_eq_false (out : String) (h : out ≠ "/") :
    mountMatches out out = false := by
  have hb : (out == "/") = false := by simpa using h
  simp [mountMatches, mountPointWithSep, hb, pyStartswith_self_append_sep]

/-! ## Mount-resolution fold lemmas -/

theorem selectFold_snd_mono (out : String) (l : List String)
    (acc : String × Nat) : acc.2 ≤ (l.foldl (selectStep out) acc).2 := by
  induction l generalizing acc with
  | nil => exact le_refl _
  | cons a t ih =>
    refine le_trans ?_ (ih (selectStep out acc a))
    unfold selectStep
    split
    · next hc => exact Nat.le_of_lt hc.2
    · exact le_refl _

theorem selectFold_snd_le_length (out : String) (l : List String)
    (acc : String × Nat) (h : acc.2 ≤ acc.1.length) :
    (l.foldl (selectStep out) acc).2
      ≤ (l.foldl (selectStep out) acc).1.length := by
  induction l generalizing acc with
  | nil => exact h
  | cons a t ih =>
    apply ih
    unfold selectStep
    split
    · exact le_refl _
    · exact h

theorem selectFold_fst (out : String) (l : List String)
    (acc : String × Nat) :
    (l.foldl (selectStep out) acc).1 = acc.1
    ∨ ((l.foldl (selectStep out) acc).1 ∈ l
        ∧ mountMatches out (l.foldl (selectStep out) acc).1 = true) := by
  induction l generalizing acc with
  | nil => left; rfl
  | cons a t ih =>
    rw [List.foldl_cons]
    by_cases hc : mountMatches out a = true ∧ acc.2 < a.length
    · have ha : selectStep out acc a = (a, a.length) := by
        unfold selectStep; rw [if_pos hc]
      rw [ha]
      rcases ih (a, a.length) with h | h
      · right
        rw [h]
        exact ⟨List.mem_cons_self a t, hc.1⟩
      · exact Or.inr ⟨List.mem_cons_of_mem a h.1, h.2⟩
    · have ha : selectStep out acc a = acc := by
        unfold selectStep; rw [if_neg hc]
      rw [ha]
      rcases ih acc with h | h
      · exact Or.inl h
      · exact Or.inr ⟨List.mem_cons_of_mem a h.1, h.2⟩

theorem selectFold_longest (out : String) (l : List String) (m : String)
    (hm : m ∈ l) (hmatch : mountMatches out m = true) :
    ∀ acc : String × Nat, m.length ≤ (l.foldl (selectStep out) acc).2 := by
  induction hm with
  | head t =>
    intro acc
    rw [List.foldl_cons]
    by_cases hc : acc.2 < m.length
    · have ha : selectStep out acc m = (m, m.length) := by
        unfold selectStep; rw [if_pos ⟨hmatch, hc⟩]
      rw [ha]
      exact selectFold_snd_mono out t (m, m.length)
    · have h1 : m.length ≤ acc.2 := Nat.le_of_not_lt hc
      have h2 : acc.2 ≤ (selectStep out acc m).2 := by
        unfold selectStep
        split
        · next hh => exact Nat.le_of_lt hh.2
        · exact le_refl _
      exact le_trans (le_trans h1 h2) (selectFold_snd_mono out t _)
  | tail b hmt ih =>
    intro acc
    rw [List.foldl_cons]
    exact ih (selectStep out acc b)

/-! ## Dispatcher lemmas -/

theorem dispatchFile_of_inflight (st : UploadState) (f : String)
    (h : st.upload_in_progress.lookup f = some true) :
    dispatchFile st f = (st, false) := by
  unfold dispatchFile
  cases hd : st.disk.lookup f with
  | none => rfl
  | some fp => simp [h]

theorem pollCycles_preserves_inflight (st : UploadState) (f : String)
    (disks : List (List (String × Fingerprint)))
    (h : st.upload_in_progress.lookup f = some true) :
    (pollCycles st f disks).upload_in_progress = st.upload_in_progress := by
  induction disks generalizing st with
  | nil => rfl
  | cons d t ih =>
    have hstep : dispatchFile { st with disk := d } f
        = ({ st with disk := d }, false) :=
      dispatchFile_of_inflight { st with disk := d } f h
    show ((t.foldl (fun s d₂ => (dispatchFile { s with disk := d₂ } f).1)
        ((dispatchFile { st with disk := d } f).1))).upload_in_progress
      = st.upload_in_progress
    rw [hstep]
    exact ih { st with disk := d } h

/-! ## Claim theorems -/

/-- C2 counterexample: a temp segment file only 10 seconds old (well below
the 70-second age threshold) is DELETED by one scan pass when a file
already exists at its final path, because `rename_completed_segments`
checks final-path existence before checking the file's age. -/
theorem C2_counterexample :
    ((1010 : Int) - 1000 < minAgeBeforeRename)
    ∧ (processTempSegment [("d/00_temp.mp4", 1000), ("d/00.mp4", 900)]
        1010 "d" "00_temp.mp4").2 = RenameAction.removedRedundantTemp
    ∧ (processTempSegment [("d/00_temp.mp4", 1000), ("d/00.mp4", 900)]
        1010 "d" "00_temp.mp4").1.lookup "d/00_temp.mp4" = none := by
  decide

/-- C2 (amended): one Finalizer scan pass neither renames nor deletes a
temp-suffixed file whose age is below segment duration plus grace,
provided no file exists at the corresponding final path; when the final
path does already exist, the temp file is deleted regardless of its age. -/
theorem C2_young_temp_untouched_unless_final_exists
    (files : List (String × Int)) (now : Int) (root filename : String)
    (mtime : Int) :
    (files.lookup (root ++ "/" ++ finalFilename filename) = none →
      files.lookup (root ++ "/" ++ filename) = some mtime →
      now - mtime < minAgeBeforeRename →
      processTempSegment files now root filename
        = (files, RenameAction.skippedYoung))
    ∧ ((files.lookup (root ++ "/" ++ finalFilename filename)).isSome = true →
      processTempSegment files now root filename
        = (AListRemove files (root ++ "/" ++ filename),
           RenameAction.removedRedundantTemp)) := by
  constructor
  · intro hfin hlook hyoung
    simp [processTempSegment, hfin, hlook, hyoung]
  · intro hfin
    simp [processTempSegment, hfin]

/-- C2 witness: both branches of the amended statement at concrete
inputs. -/
theorem C2_witness :
    processTempSegment [("d/01_temp.mp4", 1000)] 1010 "d" "01_temp.mp4"
      = ([("d/01_temp.mp4", 1000)], RenameAction.skippedYoung)
    ∧ processTempSegment [("d/02_temp.mp4", 1000), ("d/02.mp4", 900)]
        1010 "d" "02_temp.mp4"
      = (AListRemove [("d/02_temp.mp4", 1000), ("d/02.mp4", 900)]
          "d/02_temp.mp4", RenameAction.removedRedundantTemp) :=
  ⟨(C2_young_temp_untouched_unless_final_exists
      [("d/01_temp.mp4", 1000)] 1010 "d" "01_temp.mp4" 1000).1
      (by decide) (by decide) (by decide),
   (C2_young_temp_untouched_unless_final_exists
      [("d/02_temp.mp4", 1000), ("d/02.mp4", 900)] 1010 "d"
      "02_temp.mp4" 0).2 (by decide)⟩

/-- C4 counterexample: there is no positive minimum uptime such that the
consecutive-failure counter is reset exactly when the relaunched process
ran at least that long — the embedded supervisor iteration resets the
counter right after a successful launch even at uptime 0. -/
theorem C4_counterexample :
    ¬ ∃ minUptime : Nat, 0 < minUptime ∧
      ∀ c u : Nat,
        ((recorderCrashIteration c u).counterAfterLaunch = 0
          ↔ minUptime ≤ u) := by
  rintro ⟨m, hm, h⟩
  have h0 : m ≤ 0 := (h 0 0).mp rfl
  omega

/-- C4 (amended): the consecutive-failure counter is reset to zero
immediately upon every successful process launch, regardless of the
starting counter value and of how long the relaunched process then runs;
consequently after any crash of a successfully launched process the
counter is exactly 1 and the wait is always the short retry delay. -/
theorem C4_counter_resets_on_launch (c u : Nat) :
    (recorderCrashIteration c u).counterAfterLaunch = 0
    ∧ (recorderCrashIteration c u).counterAfterExit = 1
    ∧ (recorderCrashIteration c u).waitSeconds
        = FFMPEG_RETRY_DELAY_SECONDS :=
  ⟨rfl, rfl, rfl⟩

/-- C5 (confirmed): on every encoder crash the supervisor increments the
consecutive-failure counter; if the incremented counter is at most
`FFMPEG_MAX_RETRIES` it waits `FFMPEG_RETRY_DELAY_SECONDS` (15 s) before
relaunching, and if it exceeds `FFMPEG_MAX_RETRIES` it waits
`FFMPEG_LONG_RETRY_PAUSE_SECONDS` (300 s) and resets the counter to
zero before relaunching. -/
theorem C5_crash_retry_circuit_breaker (current_retries : Nat) :
    (current_retries + 1 ≤ FFMPEG_MAX_RETRIES →
      crashRetryStep current_retries
        = (current_retries + 1, FFMPEG_RETRY_DELAY_SECONDS))
    ∧ (FFMPEG_MAX_RETRIES < current_retries + 1 →
      crashRetryStep current_retries
        = (0, FFMPEG_LONG_RETRY_PAUSE_SECONDS)) := by
  have h5 : FFMPEG_MAX_RETRIES = 5 := rfl
  constructor
  · intro h
    simp only [crashRetryStep]
    rw [if_neg (by omega)]
  · intro h
    simp only [crashRetryStep]
    rw [if_pos (by omega)]

/-- C5 witness: the fast-retry branch at counter 2 and the circuit-breaker
branch at counter 7. -/
theorem C5_witness :
    crashRetryStep 2 = (3, 15) ∧ crashRetryStep 7 = (0, 300) :=
  ⟨(C5_crash_retry_circuit_breaker 2).1 (by decide),
   (C5_crash_retry_circuit_breaker 7).2 (by decide)⟩

/-- C7 (confirmed): a temp-suffixed file whose age is strictly below
`minAgeBeforeRename = SEGMENT_DURATION_SECONDS + 10` (70 s) is never
renamed to its final name by the Finalizer's scan, in every branch of the
per-file logic. -/
theorem C7_young_temp_never_renamed (files : List (String × Int))
    (now : Int) (root filename : String) (mtime : Int)
    (htemp : pyEndswith filename "_temp.mp4" = true)
    (hlook : files.lookup (root ++ "/" ++ filename) = some mtime)
    (hyoung : now - mtime < minAgeBeforeRename) :
    (processTempSegment files now root filename).2 ≠ RenameAction.renamed
    ∧ minAgeBeforeRename = SEGMENT_DURATION_SECONDS + 10 := by
  refine ⟨?_, rfl⟩
  simp only [processTempSegment]
  split
  · simp
  · rw [hlook]
    simp [hyoung]

/-- C7 witness: a 10-second-old temp segment is not renamed. -/
theorem C7_witness :
    (processTempSegment [("d/00_temp.mp4", 1000)] 1010 "d"
      "00_temp.mp4").2 ≠ RenameAction.renamed :=
  (C7_young_temp_never_renamed [("d/00_temp.mp4", 1000)] 1010 "d"
    "00_temp.mp4" 1000 (by decide) (by decide) (by decide)).1

/-- C8 (confirmed): the Retention Sweeper never removes a file whose
modification time is newer than `now - retentionWindow`, and of two
finalized files at ages `retentionWindow - 1` and `retentionWindow + 1`
seconds, exactly the older one is removed. -/
theorem C8_retention_never_deletes_young (now w m1 m2 : Int)
    (f1 f2 : String)
    (h1 : now - m1 = w - 1) (h2 : now - m2 = w + 1)
    (ht1 : isRetentionTarget f1 = true)
    (ht2 : isRetentionTarget f2 = true) :
    cleanupSweep [(f1, m1), (f2, m2)] now w = [(f1, m1)]
    ∧ ∀ (files : List (String × Int)) (g : String) (m : Int),
        (g, m) ∈ files → now - w < m → (g, m) ∈ cleanupSweep files now w := by
  constructor
  · have e1 : decide (m1 < now - w) = false := by
      simp only [decide_eq_false_iff_not]
      omega
    have e2 : decide (m2 < now - w) = true := by
      simp only [decide_eq_true_eq]
      omega
    simp [cleanupSweep, List.filter, ht1, ht2, e1, e2]
  · intro files g m hmem hyoung
    have e : decide (m < now - w) = false := by
      simp only [decide_eq_false_iff_not]
      omega
    refine List.mem_filter.mpr ⟨hmem, ?_⟩
    simp [e]

/-- C8 witness: with retention window 100 at time 1000, the file of age 99
is kept and the file of age 101 is removed. -/
theorem C8_witness :
    cleanupSweep [("a.mp4", 901), ("b.mp4", 899)] 1000 100
      = [("a.mp4", 901)] :=
  (C8_retention_never_deletes_young 1000 100 901 899 "a.mp4" "b.mp4"
    (by decide) (by decide) (by decide) (by decide)).1

/-- C1 counterexample: after the dispatcher submits a file and the upload
fails, the local file still exists with the same fingerprint, yet the next
poll cycle does NOT re-submit it — the dispatcher recorded the fingerprint
at submission time and failure does not roll it back, refuting the claim's
conclusion that the same file version is re-submitted. -/
theorem C1_counterexample :
    ((afterFailedUpload ⟨[("segment_000.ts", (100, 5))], [], [], []⟩
        "segment_000.ts").disk.lookup "segment_000.ts" = some (100, 5))
    ∧ (dispatchFile
        (afterFailedUpload ⟨[("segment_000.ts", (100, 5))], [], [], []⟩
          "segment_000.ts") "segment_000.ts").2 = false := by
  decide

/-- C1 (amended): when the dispatcher submits a file and the upload fails,
the local file still exists with its fingerprint unchanged and the
in-flight flag is cleared, but the recorded fingerprint equals the failed
version (it was stored at submission and is not rolled back), so a later
poll cycle does not re-submit the same file version; the file is
re-submitted only once its (mtime, size) fingerprint changes. -/
theorem C1_failed_upload_not_retried (st : UploadState) (f : String)
    (fp : Fingerprint)
    (hdisk : st.disk.lookup f = some fp)
    (hch : fingerprintChanged st.existing_files f fp = true)
    (hflag : (st.upload_in_progress.lookup f).getD false = false) :
    (dispatchFile st f).2 = true
    ∧ (afterFailedUpload st f).disk.lookup f = some fp
    ∧ (afterFailedUpload st f).existing_files.lookup f = some fp
    ∧ (afterFailedUpload st f).upload_in_progress.lookup f = some false
    ∧ (dispatchFile (afterFailedUpload st f) f).2 = false
    ∧ ∀ fp₂ : Fingerprint, fp₂ ≠ fp →
        (dispatchFile { afterFailedUpload st f with
            disk := AListSet (afterFailedUpload st f).disk f fp₂ } f).2
          = true := by
  have hdisp : dispatchFile st f =
      ({ st with
          upload_in_progress := AListSet st.upload_in_progress f true,
          existing_files := AListSet st.existing_files f fp }, true) := by
    simp [dispatchFile, hdisk, hch, hflag]
  have hst2 : afterFailedUpload st f =
      ⟨st.disk, AListSet st.existing_files f fp,
        AListSet (AListSet st.upload_in_progress f true) f false,
        st.s3⟩ := by
    unfold afterFailedUpload
    rw [hdisp]
    simp [uploadWorker, hdisk, lookup_AListSet_self]
  have hch2 : fingerprintChanged (AListSet st.existing_files f fp) f fp
      = false := by
    simp [fingerprintChanged, lookup_AListSet_self]
  refine ⟨by rw [hdisp], ?_, ?_, ?_, ?_, ?_⟩
  · rw [hst2]; exact hdisk
  · rw [hst2]; exact lookup_AListSet_self _ f fp
  · rw [hst2]; exact lookup_AListSet_self _ f false
  · rw [hst2]
    simp [dispatchFile, hdisk, hch2]
  · intro fp₂ hne
    have hfc : fingerprintChanged (AListSet st.existing_files f fp) f fp₂
        = true := by
      simp [fingerprintChanged, lookup_AListSet_self]
      exact Ne.symm hne
    rw [hst2]
    simp [dispatchFile, lookup_AListSet_self, hfc]

/-- C1 witness: the amended statement at a concrete one-file state. -/
theorem C1_witness :
    (dispatchFile ⟨[("seg.ts", (100, 5))], [], [], []⟩ "seg.ts").2 = true
    ∧ (afterFailedUpload ⟨[("seg.ts", (100, 5))], [], [], []⟩
        "seg.ts").disk.lookup "seg.ts" = some (100, 5) :=
  ⟨(C1_failed_upload_not_retried
      ⟨[("seg.ts", (100, 5))], [], [], []⟩ "seg.ts" (100, 5)
      (by decide) (by decide) (by decide)).1,
   (C1_failed_upload_not_retried
      ⟨[("seg.ts", (100, 5))], [], [], []⟩ "seg.ts" (100, 5)
      (by decide) (by decide) (by decide)).2.1⟩

/-- C6 (confirmed): for every upload-worker attempt, the local file is
deleted exactly when the storage put succeeds: on a failed put the file
and the remote sink are unchanged, on a successful put the file is gone
and its key is in the sink, and the early-return attempts (client not
initialized, or file already missing) change nothing on disk. -/
theorem C6_delete_iff_put_success (st : UploadState) (filename : String)
    (fp : Fingerprint) (putOk : Bool) :
    (st.disk.lookup filename = some fp →
      (((uploadWorker st true filename putOk).disk.lookup filename = none)
        ↔ putOk = true)
      ∧ (putOk = false →
          (uploadWorker st true filename putOk).disk.lookup filename
            = some fp
          ∧ (uploadWorker st true filename putOk).s3 = st.s3)
      ∧ (putOk = true →
          filename ∈ (uploadWorker st true filename putOk).s3))
    ∧ (uploadWorker st false filename putOk).disk = st.disk
    ∧ (st.disk.lookup filename = none →
        (uploadWorker st true filename putOk).disk = st.disk) := by
  refine ⟨?_, ?_, ?_⟩
  · intro h
    cases putOk with
    | true =>
      refine ⟨?_, by simp, ?_⟩
      · simp [uploadWorker, h, lookup_AListRemove_self]
      · intro _
        simp [uploadWorker, h]
    | false =>
      refine ⟨?_, ?_, by simp⟩
      · simp [uploadWorker, h]
      · intro _
        simp [uploadWorker, h]
  · simp [uploadWorker]
  · intro h
    simp [uploadWorker, h]

/-- C6 witness: a successful put deletes the file, a failed put leaves it
in place. -/
theorem C6_witness :
    ((uploadWorker ⟨[("f.ts", (1, 2))], [], [("f.ts", true)], []⟩ true
      "f.ts" true).disk.lookup "f.ts" = none)
    ∧ ((uploadWorker ⟨[("f.ts", (1, 2))], [], [("f.ts", true)], []⟩ true
      "f.ts" false).disk.lookup "f.ts" = some (1, 2)) :=
  ⟨((C6_delete_iff_put_success ⟨[("f.ts", (1, 2))], [], [("f.ts", true)], []⟩
      "f.ts" (1, 2) true).1 (by decide)).1.mpr rfl,
   (((C6_delete_iff_put_success ⟨[("f.ts", (1, 2))], [], [("f.ts", true)], []⟩
      "f.ts" (1, 2) false).1 (by decide)).2.1 rfl).1⟩

/-- C9 (confirmed): if the upload worker returns early (S3 client never
initialized, or the file is gone when the worker starts) the in-flight
flag set by the dispatcher is never cleared, and with the flag set the
dispatcher refuses to submit the file on that cycle and on every
subsequent poll cycle, whatever directory contents (including a new or
changed file of the same name) those cycles observe. -/
theorem C9_leaked_inflight_flag_blocks_resubmission
    (st : UploadState) (f : String) (ready putOk : Bool)
    (disks : List (List (String × Fingerprint)))
    (hflag : st.upload_in_progress.lookup f = some true)
    (hearly : ready = false ∨ st.disk.lookup f = none) :
    (uploadWorker st ready f putOk).upload_in_progress
      = st.upload_in_progress
    ∧ (dispatchFile st f).2 = false
    ∧ (pollCycles st f disks).upload_in_progress.lookup f = some true
    ∧ ∀ d, (dispatchFile { pollCycles st f disks with disk := d } f).2
        = false := by
  have hpoll := pollCycles_preserves_inflight st f disks hflag
  refine ⟨?_, ?_, ?_, ?_⟩
  · rcases hearly with hr | hd
    · subst hr
      simp [uploadWorker]
    · cases ready with
      | false => simp [uploadWorker]
      | true => simp [uploadWorker, hd]
  · rw [dispatchFile_of_inflight st f hflag]
  · rw [hpoll, hflag]
  · intro d
    have hflag2 : ({ pollCycles st f disks with disk := d } :
        UploadState).upload_in_progress.lookup f = some true := by
      show (pollCycles st f disks).upload_in_progress.lookup f = some true
      rw [hpoll, hflag]
    rw [dispatchFile_of_inflight _ f hflag2]

/-- C9 witness: a leaked flag survives a worker run on a vanished file,
and blocks a dispatch that would otherwise submit a fresh file. -/
theorem C9_witness :
    (uploadWorker ⟨[], [], [("f.ts", true)], []⟩ true "f.ts"
      true).upload_in_progress = [("f.ts", true)]
    ∧ (dispatchFile ⟨[("f.ts", (7, 7))], [], [("f.ts", true)], []⟩
        "f.ts").2 = false :=
  ⟨(C9_leaked_inflight_flag_blocks_resubmission
      ⟨[], [], [("f.ts", true)], []⟩ "f.ts" true true []
      (by decide) (Or.inr (by decide))).1,
   (C9_leaked_inflight_flag_blocks_resubmission
      ⟨[("f.ts", (7, 7))], [], [("f.ts", true)], []⟩ "f.ts" false true []
      (by decide) (Or.inl rfl)).2.1⟩

/-- C3 counterexample: at usage exactly equal to the threshold (90 = 90)
the embedded disk check does NOT pause the launch, refuting the claimed
"greater than or equal" pause condition — the code compares strictly. -/
theorem C3_counterexample :
    diskGuardPauses 90 90 = false ∧ ((90 : ℚ) ≤ 90) :=
  ⟨by decide, le_refl 90⟩

/-- C3 (amended): the pre-launch disk check pauses the encoder launch
exactly when the used percentage of the selected mount is strictly
greater than the threshold, and the mount resolution selects either the
root or a matching mount from the partition list whose mount-point length
bounds the length of every matching mount. -/
theorem C3_disk_guard_strict_and_longest_mount (percent disk_limit : ℚ)
    (partitions : List String) (output_dir : String) :
    (diskGuardPauses percent disk_limit = true ↔ disk_limit < percent)
    ∧ (selectMountPoint partitions output_dir = "/"
        ∨ (selectMountPoint partitions output_dir ∈ partitions
            ∧ mountMatches output_dir
                (selectMountPoint partitions output_dir) = true))
    ∧ ∀ mp ∈ partitions, mountMatches output_dir mp = true →
        mp.length ≤ (selectMountPoint partitions output_dir).length := by
  refine ⟨by simp [diskGuardPauses], ?_, ?_⟩
  · simpa [selectMountPoint] using
      selectFold_fst output_dir partitions ("/", 0)
  · intro mp hmp hmatch
    have h1 := selectFold_longest output_dir partitions mp hmp hmatch ("/", 0)
    have h2 := selectFold_snd_le_length output_dir partitions ("/", 0)
      (by decide)
    simpa [selectMountPoint] using le_trans h1 h2

/-- C3 witness: usage 95 over threshold 90 pauses, and the nested mount
"/media" dominates the length bound for the output directory
"/media/external/raw". -/
theorem C3_witness :
    diskGuardPauses 95 90 = true
    ∧ ("/media" : String).length
        ≤ (selectMountPoint ["/", "/media"] "/media/external/raw").length :=
  ⟨(C3_disk_guard_strict_and_longest_mount 95 90 [] "").1.mpr (by decide),
   (C3_disk_guard_strict_and_longest_mount 95 90 ["/", "/media"]
      "/media/external/raw").2.2 "/media" (by decide) (by decide)⟩

/-- C10 counterexample: when the output directory is the root "/" itself,
the root mount — whose mount-point string equals the output directory
exactly — IS selected, refuting the unconditional "never selected". -/
theorem C10_counterexample :
    ("/" ∈ (["/"] : List String)) ∧ selectMountPoint ["/"] "/" = "/" := by
  decide

/-- C10 (amended): for every output directory other than "/" itself, a
mounted filesystem whose mount point equals the output directory exactly
is never selected, because the match requires the output directory to
start with the mount point followed by a path separator; the selection
result is therefore never the output directory itself. -/
theorem C10_exact_mount_never_selected (partitions : List String)
    (output_dir : String) (h : output_dir ≠ "/") :
    selectMountPoint partitions output_dir ≠ output_dir
    ∧ ∀ mp : String, mp ≠ "/" → mountMatches output_dir mp = true →
        mp ≠ output_dir := by
  have key : ∀ mp : String, mp ≠ "/" →
      mountMatches output_dir mp = true → mp ≠ output_dir := by
    intro mp hmp hmatch heq
    rw [heq] at hmatch hmp
    rw [mountMatches_self_eq_false output_dir hmp] at hmatch
    exact Bool.false_ne_true hmatch
  refine ⟨?_, key⟩
  intro he
  rcases selectFold_fst output_dir partitions ("/", 0) with h1 | h1
  · have hroot : selectMountPoint partitions output_dir = "/" := h1
    rw [he] at hroot
    exact h hroot
  · by_cases hroot : selectMountPoint partitions output_dir = "/"
    · rw [he] at hroot
      exact h hroot
    · exact key (selectMountPoint partitions output_dir) hroot h1.2 he

/-- C10 witness: a mount equal to the (non-root) output directory is not
selected even when present; the resolution falls back to "/" here. -/
theorem C10_witness :
    selectMountPoint ["/", "/media/external/raw"] "/media/external/raw"
      ≠ "/media/external/raw" :=
  (C10_exact_mount_never_selected ["/", "/media/external/raw"]
    "/media/external/raw" (by decide)).1

end Manor
